import Mathlib

/-!
Shallow embedding of the f18 runtime derived-type support
(runtime/derived-type.h and runtime/derived-type.cpp).

Instance memory is modelled as a total map from byte addresses to byte
values; an instance buffer is the address range starting at some base.
Type-bound procedure entry points are raw integer addresses whose host
semantics is an abstract environment mapping an entry address and an
instance address to a memory transformer.
-/

namespace Fortran.Runtime

/-- Byte-addressed memory: address to byte value. -/
abbrev Mem : Type := Nat → Nat

/-- Abstract semantics of host entry points: entry address, instance
address, memory in, memory out. -/
abbrev ProcEnv : Type := Int → Nat → Mem → Mem

/-- One KIND or LEN type parameter (derived-type.h, class TypeParameter).
The type code is modelled as a raw numeric code. -/
structure TypeParameter where
  name : String
  typeCode : Nat
  which : Int
  value : Int
deriving DecidableEq, Repr

/-- One type-bound procedure (derived-type.h, struct TypeBoundProcedure).
The two raw entry addresses of ExecutableCode are the host and device
fields; 0 models a null entry point. -/
structure TypeBoundProcedure where
  flags : Nat
  finalRank : Nat
  name : String
  host : Int
  device : Int
deriving DecidableEq, Repr

namespace TypeBoundProcedure

def INITIALIZER : Nat := 1
def ELEMENTAL : Nat := 2
def ASSIGNMENT : Nat := 4
def ASSUMED_RANK_FINAL : Nat := 8

/-- derived-type.h line 119: IsFinalForRank. -/
def IsFinalForRank (tbp : TypeBoundProcedure) (rank : Nat) : Bool :=
  ((tbp.flags &&& ASSUMED_RANK_FINAL) != 0) || (((tbp.finalRank >>> rank) &&& 1) != 0)

end TypeBoundProcedure

mutual

/-- Modelled from the spec: the Descriptor collaborator, code outside this core
(descriptor.h is not among the provided sources).  Only the part the
derived-type code consults is represented: an optional addendum. -/
inductive Descriptor : Type where
  | mk : Option DescriptorAddendum → Descriptor

/-- Modelled from the spec: the DescriptorAddendum collaborator, code outside this core,
holding an optional pointer to the nested derived type. -/
inductive DescriptorAddendum : Type where
  | mk : Option DerivedType → DescriptorAddendum

/-- One component (derived-type.h, class Component): name, flag set,
optional static descriptor, byte offset into the instance. -/
inductive Component : Type where
  | mk : String → Nat → Option Descriptor → Nat → Component

/-- Derived-type metadata as stored (derived-type.h, class DerivedType):
name, KIND and LEN parameter counts, type parameters, components,
type-bound procedures, computed flags, optional flat default image,
instance size in bytes, cached initializer-procedure index. -/
inductive DerivedType : Type where
  | mk : String → Nat → Nat → List TypeParameter → List Component →
      List TypeBoundProcedure → Nat → Option (List Nat) → Nat → Int → DerivedType

end

def Descriptor.Addendum : Descriptor → Option DescriptorAddendum
  | Descriptor.mk a => a

def DescriptorAddendum.derivedType : DescriptorAddendum → Option DerivedType
  | DescriptorAddendum.mk t => t

namespace Component

def PARENT : Nat := 1
def PRIVATE : Nat := 2
def IS_DESCRIPTOR : Nat := 4

def name : Component → String
  | Component.mk n _ _ _ => n

def flags : Component → Nat
  | Component.mk _ f _ _ => f

def staticDescriptor : Component → Option Descriptor
  | Component.mk _ _ sd _ => sd

def offset : Component → Nat
  | Component.mk _ _ _ o => o

def IsParent (c : Component) : Bool := (c.flags &&& PARENT) != 0

def IsPrivate (c : Component) : Bool := (c.flags &&& PRIVATE) != 0

def IsDescriptor (c : Component) : Bool := (c.flags &&& IS_DESCRIPTOR) != 0

end Component

namespace DerivedType

def SEQUENCE : Nat := 1
def BIND_C : Nat := 2
def FINALIZABLE : Nat := 4
def INIT_ZERO : Nat := 8
def INIT_COMPONENT : Nat := 16

def name : DerivedType → String
  | DerivedType.mk n _ _ _ _ _ _ _ _ _ => n

def kindParameters : DerivedType → Nat
  | DerivedType.mk _ kp _ _ _ _ _ _ _ _ => kp

def lenParameters : DerivedType → Nat
  | DerivedType.mk _ _ lp _ _ _ _ _ _ _ => lp

def typeParameter : DerivedType → List TypeParameter
  | DerivedType.mk _ _ _ tp _ _ _ _ _ _ => tp

def components : DerivedType → List Component
  | DerivedType.mk _ _ _ _ cs _ _ _ _ _ => cs

def typeBoundProcedures : DerivedType → List TypeBoundProcedure
  | DerivedType.mk _ _ _ _ _ tbps _ _ _ _ => tbps

def flags : DerivedType → Nat
  | DerivedType.mk _ _ _ _ _ _ f _ _ _ => f

def initializer : DerivedType → Option (List Nat)
  | DerivedType.mk _ _ _ _ _ _ _ i _ _ => i

def bytes : DerivedType → Nat
  | DerivedType.mk _ _ _ _ _ _ _ _ b _ => b

def initTBP : DerivedType → Int
  | DerivedType.mk _ _ _ _ _ _ _ _ _ i => i

/-- derived-type.h: SizeInBytes. -/
def SizeInBytes (dt : DerivedType) : Nat := dt.bytes

/-- derived-type.h line 173: IsExtension. -/
def IsExtension (dt : DerivedType) : Bool :=
  match dt.components with
  | c :: _ => c.IsParent
  | [] => false

/-- derived-type.h: set_sequence. -/
def set_sequence (dt : DerivedType) : DerivedType :=
  DerivedType.mk dt.name dt.kindParameters dt.lenParameters dt.typeParameter
    dt.components dt.typeBoundProcedures (dt.flags ||| SEQUENCE) dt.initializer
    dt.bytes dt.initTBP

/-- derived-type.h: set_bind_c. -/
def set_bind_c (dt : DerivedType) : DerivedType :=
  DerivedType.mk dt.name dt.kindParameters dt.lenParameters dt.typeParameter
    dt.components dt.typeBoundProcedures (dt.flags ||| BIND_C) dt.initializer
    dt.bytes dt.initTBP

def IsSequence (dt : DerivedType) : Bool := (dt.flags &&& SEQUENCE) != 0

def IsBindC (dt : DerivedType) : Bool := (dt.flags &&& BIND_C) != 0

/-- derived-type.h line 179: IsInitializable. -/
def IsInitializable (dt : DerivedType) : Bool :=
  dt.initializer.isSome || dt.initTBP ≥ 0 ||
    ((dt.flags &&& (INIT_ZERO ||| INIT_COMPONENT)) != 0)

/-- derived-type.h line 183: IsInitZero. -/
def IsInitZero (dt : DerivedType) : Bool := (dt.flags &&& INIT_ZERO) != 0

/-- derived-type.h line 184: IsFinalizable. -/
def IsFinalizable (dt : DerivedType) : Bool := (dt.flags &&& FINALIZABLE) != 0

end DerivedType

/-- The constructor loop of derived-type.cpp lines 30-33: the running value
of the initTBP member while scanning the procedure table; j is the index of
the head of the remaining list, acc the value so far (initially -1). -/
def computeInitTBPAux : List TypeBoundProcedure → Nat → Int → Int
  | [], _, acc => acc
  | t :: rest, j, acc =>
      computeInitTBPAux rest (j + 1)
        (if t.flags &&& TypeBoundProcedure.INITIALIZER ≠ 0 then (j : Int) else acc)

def computeInitTBP (tbps : List TypeBoundProcedure) : Int :=
  computeInitTBPAux tbps 0 (-1)

/-- The constructor loop of derived-type.cpp lines 34-37: FINALIZABLE is set
when any procedure has a nonzero finalRank or the ASSUMED_RANK_FINAL flag. -/
def finalizableFlag (tbps : List TypeBoundProcedure) : Nat :=
  if tbps.any fun t =>
      t.finalRank ≠ 0 || ((t.flags &&& TypeBoundProcedure.ASSUMED_RANK_FINAL) != 0)
  then DerivedType.FINALIZABLE else 0

/-- The component scan of derived-type.cpp lines 40-53: accumulates the
INIT_ZERO and INIT_COMPONENT bits over the component table. -/
def componentInitFlags (comps : List Component) : Nat :=
  comps.foldl
    (fun fl c =>
      if c.IsDescriptor then fl ||| DerivedType.INIT_ZERO
      else
        match c.staticDescriptor with
        | some sd =>
            match sd.Addendum with
            | some a =>
                match a.derivedType with
                | some t =>
                    if t.IsInitializable && !t.IsInitZero then
                      fl ||| DerivedType.INIT_COMPONENT
                    else fl
                | none => fl
            | none => fl
        | none => fl)
    0

/-- The DerivedType constructor (derived-type.cpp lines 24-55): stores the
arguments and computes initTBP and the FINALIZABLE / INIT_ZERO /
INIT_COMPONENT flag bits.  The component scan runs only when there is no
flat default image and no initializer procedure was found. -/
def mkDerivedType (n : String) (kps lps : Nat) (tp : List TypeParameter)
    (ca : List Component) (tbp : List TypeBoundProcedure)
    (init : Option (List Nat)) (sz : Nat) : DerivedType :=
  let itbp := computeInitTBP tbp
  let fin := finalizableFlag tbp
  let cfl := if init.isNone ∧ itbp < 0 then componentInitFlags ca else 0
  DerivedType.mk n kps lps tp ca tbp (fin ||| cfl) init sz itbp

/-- std::memcpy(instance, image, sz) at base address: bytes in
[base, base + sz) come from the image, all others are untouched. -/
def memcpyImage (base sz : Nat) (img : List Nat) (m : Mem) : Mem :=
  fun a => if base ≤ a ∧ a < base + sz then img.getD (a - base) 0 else m a

/-- std::memset(instance, 0, sz) at base address. -/
def memsetZero (base sz : Nat) (m : Mem) : Mem :=
  fun a => if base ≤ a ∧ a < base + sz then 0 else m a

/-- typeBoundProcedure_[initTBP_].code.host when initTBP_ is in range,
0 (a null entry point) otherwise; the constructor keeps initTBP_ in
range whenever it is nonnegative. -/
def initHost (dt : DerivedType) : Int :=
  ((dt.typeBoundProcedures.get? dt.initTBP.toNat).map TypeBoundProcedure.host).getD 0

mutual

/-- DerivedType::Initialize (derived-type.cpp lines 57-79): copy the flat
image if present; else call the initializer procedure through its host
entry point if one is cached and the entry point is non-null; else
zero-fill under INIT_ZERO and then, under INIT_COMPONENT, run the static
descriptor of every component that has one on the located sub-instance. -/
def DerivedType.Initialize (env : ProcEnv) (dt : DerivedType) (base : Nat)
    (m : Mem) : Mem :=
  match dt with
  | DerivedType.mk n kps lps tp ca tbp fl init sz itbp =>
    let dt0 := DerivedType.mk n kps lps tp ca tbp fl init sz itbp
    match init with
    | some img => memcpyImage base sz img m
    | none =>
      if itbp ≥ 0 ∧ initHost dt0 ≠ 0 then env (initHost dt0) base m
      else
        let m1 := if fl &&& DerivedType.INIT_ZERO ≠ 0 then memsetZero base sz m else m
        if fl &&& DerivedType.INIT_COMPONENT ≠ 0 then initComponents env ca base m1
        else m1

/-- The loop of derived-type.cpp lines 73-77: for each component with a
static descriptor, initialize the sub-instance at the component offset. -/
def initComponents (env : ProcEnv) (comps : List Component) (base : Nat)
    (m : Mem) : Mem :=
  match comps with
  | [] => m
  | c :: rest =>
    match c with
    | Component.mk _ _ sd off =>
      let m1 :=
        match sd with
        | some d => Descriptor.Initialize env d (base + off) m
        | none => m
      initComponents env rest base m1

/-- Modelled from the spec: Descriptor::Initialize is collaborator code
(descriptor.cpp is not among the provided sources); per spec section 4.4
step 4 it recursively invokes the nested type Initialize on the located
sub-instance; with no nested type recorded it is a no-op here. -/
def Descriptor.Initialize (env : ProcEnv) (d : Descriptor) (addr : Nat)
    (m : Mem) : Mem :=
  match d with
  | Descriptor.mk a =>
    match a with
    | some ad =>
      match ad with
      | DescriptorAddendum.mk t =>
        match t with
        | some dt => DerivedType.Initialize env dt addr m
        | none => m
    | none => m

end

/-- Observable steps of the teardown code.  callFinal records the host
entry point of an invoked elemental rank-0 finalizer; deallocDescriptor
and destroyStatic record the delegations to collaborator descriptor code
(Descriptor::Deallocate and Descriptor::Destroy, both outside the
provided sources); fatal records the non-returning RUNTIME_CHECK
diagnostic, so nothing may follow it in a trace. -/
inductive DestroyAction : Type where
  | callFinal : String → Int → DestroyAction
  | deallocDescriptor : String → Nat → Bool → DestroyAction
  | destroyStatic : String → Nat → Bool → DestroyAction
  | fatal : String → DestroyAction
deriving DecidableEq, Repr

/-- The finalizer loop of derived-type.cpp lines 98-105: in table order,
every procedure flagged ELEMENTAL whose finalRank has bit 0 set and whose
host entry point is non-null is invoked. -/
def elementalFinalActions (tbps : List TypeBoundProcedure) : List DestroyAction :=
  tbps.filterMap fun t =>
    if ((t.flags &&& TypeBoundProcedure.ELEMENTAL) != 0) &&
        ((t.finalRank &&& 1) != 0) && (t.host != 0) then
      some (DestroyAction.callFinal t.name t.host)
    else none

/-- DerivedType::DestroyNonParentComponents (derived-type.cpp lines
81-94): every non-parent component is visited once in table order; a
descriptor component delegates to descriptor deallocation, a component
with a static descriptor delegates to the nested destroy, any other
component produces no action. -/
def DerivedType.DestroyNonParentComponents (dt : DerivedType) (base : Nat)
    (finalize : Bool) : List DestroyAction :=
  dt.components.filterMap fun c =>
    if c.IsParent then none
    else if c.IsDescriptor then
      some (DestroyAction.deallocDescriptor c.name (base + c.offset) finalize)
    else
      match c.staticDescriptor with
      | some _ => some (DestroyAction.destroyStatic c.name (base + c.offset) finalize)
      | none => none

/-- DerivedType::DestroyScalarInstance (derived-type.cpp lines 96-118):
run the elemental rank-0 finalizers when requested and finalizable,
destroy the non-parent components, and for an extension either recurse
into the parent type with the same finalize flag or, when the parent
component lacks a static descriptor, an addendum, or a nested type,
stop at the fatal RUNTIME_CHECK diagnostic. -/
def DerivedType.DestroyScalarInstance (dt : DerivedType) (base : Nat)
    (finalize : Bool) : List DestroyAction :=
  match dt with
  | DerivedType.mk n kps lps tp ca tbp fl init sz itbp =>
    let dt0 := DerivedType.mk n kps lps tp ca tbp fl init sz itbp
    (if finalize && dt0.IsFinalizable then elementalFinalActions tbp else [])
    ++ dt0.DestroyNonParentComponents base finalize
    ++ match ca with
       | [] => []
       | c0 :: _ =>
         if c0.IsParent then
           match c0 with
           | Component.mk _ _ sd _ =>
             match sd with
             | none => [DestroyAction.fatal "staticParentDescriptor"]
             | some d =>
               match d with
               | Descriptor.mk ad =>
                 match ad with
                 | none => [DestroyAction.fatal "parentAddendum"]
                 | some a =>
                   match a with
                   | DescriptorAddendum.mk pt =>
                     match pt with
                     | none => [DestroyAction.fatal "parentType"]
                     | some p => p.DestroyScalarInstance base finalize
         else []

/-- The parent type reached through component 0 when the type is an
extension: the nested type of the static descriptor of the parent
component, when that chain of pointers is intact. -/
def DerivedType.parentOf (dt : DerivedType) : Option DerivedType :=
  if dt.IsExtension then
    match dt.components with
    | c :: _ => (c.staticDescriptor.bind Descriptor.Addendum).bind DescriptorAddendum.derivedType
    | [] => none
  else none

/-- The inheritance chain: the type itself followed by the chain of its
parent, as far as the parent pointers reach. -/
def DerivedType.ancestorChain (dt : DerivedType) : List DerivedType :=
  dt :: match h : dt.parentOf with
        | some p => p.ancestorChain
        | none => []
decreasing_by
  unfold DerivedType.parentOf at h
  split at h
  all_goals
    first
    | exact Option.noConfusion h
    | (cases dt with
       | mk n kps lps tp ca tbp fl init sz itbp =>
         simp only [DerivedType.components] at h
         cases ca with
         | nil => exact absurd h (by simp)
         | cons c0 rest =>
           cases c0 with
           | mk cn cf sd co =>
             cases sd with
             | none => exact absurd h (by simp [Component.staticDescriptor, Option.bind])
             | some d =>
               cases d with
               | mk ad =>
                 cases ad with
                 | none =>
                   exact absurd h (by simp [Component.staticDescriptor, Descriptor.Addendum, Option.bind])
                 | some a2 =>
                   cases a2 with
                   | mk pt =>
                     cases pt with
                     | none =>
                       exact absurd h (by simp [Component.staticDescriptor, Descriptor.Addendum,
                         DescriptorAddendum.derivedType, Option.bind])
                     | some q =>
                       have hq : q = p := by
                         simpa [Component.staticDescriptor, Descriptor.Addendum,
                           DescriptorAddendum.derivedType, Option.bind] using h
                       subst hq
                       simp only [DerivedType.mk.sizeOf_spec, Component.mk.sizeOf_spec,
                         Descriptor.mk.sizeOf_spec, DescriptorAddendum.mk.sizeOf_spec,
                         List.cons.sizeOf_spec, Option.some.sizeOf_spec]
                       omega)

/-- A type whose inheritance chain is intact: every extension level in
the chain reaches its parent type through component 0. -/
def DerivedType.wellChained (dt : DerivedType) : Bool :=
  if dt.IsExtension then
    match h : dt.parentOf with
    | some p => p.wellChained
    | none => false
  else true
decreasing_by
  unfold DerivedType.parentOf at h
  split at h
  all_goals
    first
    | exact Option.noConfusion h
    | (cases dt with
       | mk n kps lps tp ca tbp fl init sz itbp =>
         simp only [DerivedType.components] at h
         cases ca with
         | nil => exact absurd h (by simp)
         | cons c0 rest =>
           cases c0 with
           | mk cn cf sd co =>
             cases sd with
             | none => exact absurd h (by simp [Component.staticDescriptor, Option.bind])
             | some d =>
               cases d with
               | mk ad =>
                 cases ad with
                 | none =>
                   exact absurd h (by simp [Component.staticDescriptor, Descriptor.Addendum, Option.bind])
                 | some a2 =>
                   cases a2 with
                   | mk pt =>
                     cases pt with
                     | none =>
                       exact absurd h (by simp [Component.staticDescriptor, Descriptor.Addendum,
                         DescriptorAddendum.derivedType, Option.bind])
                     | some q =>
                       have hq : q = p := by
                         simpa [Component.staticDescriptor, Descriptor.Addendum,
                           DescriptorAddendum.derivedType, Option.bind] using h
                       subst hq
                       simp only [DerivedType.mk.sizeOf_spec, Component.mk.sizeOf_spec,
                         Descriptor.mk.sizeOf_spec, DescriptorAddendum.mk.sizeOf_spec,
                         List.cons.sizeOf_spec, Option.some.sizeOf_spec]
                       omega)

/-- The actions one level of the inheritance chain contributes to a
scalar teardown: its elemental rank-0 finalizers when requested, then
its non-parent component destructions. -/
def levelDestroyActions (dt : DerivedType) (base : Nat) (finalize : Bool) :
    List DestroyAction :=
  (if finalize && dt.IsFinalizable then
    elementalFinalActions dt.typeBoundProcedures
  else []) ++ dt.DestroyNonParentComponents base finalize

mutual

def beqDescriptor : Descriptor → Descriptor → Bool
  | Descriptor.mk a, Descriptor.mk b => beqOptAddendum a b

def beqOptAddendum : Option DescriptorAddendum → Option DescriptorAddendum → Bool
  | none, none => true
  | some a, some b => beqAddendum a b
  | _, _ => false

def beqAddendum : DescriptorAddendum → DescriptorAddendum → Bool
  | DescriptorAddendum.mk a, DescriptorAddendum.mk b => beqOptDerivedType a b

def beqOptDerivedType : Option DerivedType → Option DerivedType → Bool
  | none, none => true
  | some a, some b => beqDerivedType a b
  | _, _ => false

def beqOptDescriptor : Option Descriptor → Option Descriptor → Bool
  | none, none => true
  | some a, some b => beqDescriptor a b
  | _, _ => false

def beqComponent : Component → Component → Bool
  | Component.mk n1 f1 sd1 o1, Component.mk n2 f2 sd2 o2 =>
    n1 == n2 && f1 == f2 && beqOptDescriptor sd1 sd2 && o1 == o2

def beqComponents : List Component → List Component → Bool
  | [], [] => true
  | c :: cs, d :: ds => beqComponent c d && beqComponents cs ds
  | _, _ => false

def beqDerivedType : DerivedType → DerivedType → Bool
  | DerivedType.mk n1 kp1 lp1 tp1 ca1 tb1 f1 i1 b1 it1,
    DerivedType.mk n2 kp2 lp2 tp2 ca2 tb2 f2 i2 b2 it2 =>
    n1 == n2 && kp1 == kp2 && lp1 == lp2 && tp1 == tp2 && beqComponents ca1 ca2 &&
      tb1 == tb2 && f1 == f2 && i1 == i2 && b1 == b2 && it1 == it2

end

/-- Modelled from the spec: Extends is only declared in derived-type.h
(lines 188-190), its definition is not among the provided sources; spec
section 4.4 says it walks the chain of parent-component nested-type
pointers and reports whether the given type appears in it. -/
def DerivedType.Extends (a b : DerivedType) : Bool :=
  match h : a.parentOf with
  | some p => beqDerivedType p b || p.Extends b
  | none => false
termination_by sizeOf a
decreasing_by
  unfold DerivedType.parentOf at h
  split at h
  all_goals
    first
    | exact Option.noConfusion h
    | (cases a with
       | mk n kps lps tp ca tbp fl init sz itbp =>
         simp only [DerivedType.components] at h
         cases ca with
         | nil => exact absurd h (by simp)
         | cons c0 rest =>
           cases c0 with
           | mk cn cf sd co =>
             cases sd with
             | none => exact absurd h (by simp [Component.staticDescriptor, Option.bind])
             | some d =>
               cases d with
               | mk ad =>
                 cases ad with
                 | none =>
                   exact absurd h (by simp [Component.staticDescriptor, Descriptor.Addendum, Option.bind])
                 | some a2 =>
                   cases a2 with
                   | mk pt =>
                     cases pt with
                     | none =>
                       exact absurd h (by simp [Component.staticDescriptor, Descriptor.Addendum,
                         DescriptorAddendum.derivedType, Option.bind])
                     | some q =>
                       have hq : q = p := by
                         simpa [Component.staticDescriptor, Descriptor.Addendum,
                           DescriptorAddendum.derivedType, Option.bind] using h
                       subst hq
                       simp only [DerivedType.mk.sizeOf_spec, Component.mk.sizeOf_spec,
                         Descriptor.mk.sizeOf_spec, DescriptorAddendum.mk.sizeOf_spec,
                         List.cons.sizeOf_spec, Option.some.sizeOf_spec]
                       omega)

/-- Whether a component carries a static descriptor whose nested type is
initializable but not purely zero-initializable (the INIT_COMPONENT test
of derived-type.cpp lines 43-51). -/
def componentCustomInit (c : Component) : Bool :=
  match (c.staticDescriptor.bind Descriptor.Addendum).bind DescriptorAddendum.derivedType with
  | some t => t.IsInitializable && !t.IsInitZero
  | none => false

/-- The body of the component scan, written with componentCustomInit. -/
def initScanStep (fl : Nat) (c : Component) : Nat :=
  if c.IsDescriptor then fl ||| DerivedType.INIT_ZERO
  else if componentCustomInit c then fl ||| DerivedType.INIT_COMPONENT else fl

/-- An elemental rank-0 finalizer whose host entry point is null. -/
def tbpElemNullHost : TypeBoundProcedure :=
  ⟨TypeBoundProcedure.ELEMENTAL, 1, "fin0", 0, 0⟩

/-- A type whose only procedure is an elemental rank-0 finalizer with a
null host entry point. -/
def dtElemNullHost : DerivedType :=
  mkDerivedType ("t2x") 0 0 [] [] [tbpElemNullHost] none 1

/-- Base level of a three-level inheritance chain, with one
descriptor-valued component. -/
def dtBaseW : DerivedType :=
  mkDerivedType ("baseW") 0 0 [] [Component.mk ("bda") 4 none 0] [] none 8

/-- Middle level of the chain: parent component 0 refers to the base. -/
def dtChildW : DerivedType :=
  mkDerivedType ("childW") 0 0 []
    [Component.mk ("p0") 1
      (some (Descriptor.mk (some (DescriptorAddendum.mk (some dtBaseW))))) 0,
     Component.mk ("cda") 4 none 8] [] none 16

/-- Most-derived level of the chain: parent component 0 refers to the
middle level. -/
def dtGrandW : DerivedType :=
  mkDerivedType ("grandW") 0 0 []
    [Component.mk ("p1") 1
      (some (Descriptor.mk (some (DescriptorAddendum.mk (some dtChildW))))) 0,
     Component.mk ("gda") 4 none 16] [] none 24

/-- An extended type whose parent component has no static descriptor. -/
def dtBrokenParent : DerivedType :=
  mkDerivedType ("bk") 0 0 [] [Component.mk ("p") 1 none 0] [] none 4

/-- An INITIALIZER-flagged procedure with a null host entry point. -/
def tbpInitNull : TypeBoundProcedure := ⟨1, 0, "ini0", 0, 0⟩

/-- A type whose single procedure is INITIALIZER-flagged with a null
host entry point, and no flat image. -/
def dtInitNull : DerivedType := mkDerivedType ("t4x") 0 0 [] [] [tbpInitNull] none 1

/-- An INITIALIZER-flagged procedure with host entry point 3. -/
def tbpInitOk : TypeBoundProcedure := ⟨1, 0, "ini3", 3, 0⟩

/-- A type whose single procedure is INITIALIZER-flagged with a non-null
host entry point, and no flat image. -/
def dtInitOk : DerivedType := mkDerivedType ("t4w") 0 0 [] [] [tbpInitOk] none 1

/-- A nested type with a one-byte flat default image holding 7. -/
def dtNested7 : DerivedType := mkDerivedType ("n5") 0 0 [] [] [] (some [7]) 1

/-- A type with one descriptor-flagged component and one component whose
static descriptor carries the initializable nested type dtNested7. -/
def dtZeroPlus : DerivedType :=
  mkDerivedType ("t5x") 0 0 []
    [Component.mk ("a5") 4 none 0,
     Component.mk ("b5") 0
       (some (Descriptor.mk (some (DescriptorAddendum.mk (some dtNested7))))) 1]
    [] none 2

/-- A type with exactly one descriptor-flagged component. -/
def dtZeroOnly : DerivedType :=
  mkDerivedType ("t5w") 0 0 [] [Component.mk ("d5") 4 none 0] [] none 1

/-- A type with one plain component, no image and no procedures. -/
def dtInert : DerivedType :=
  mkDerivedType ("t6w") 0 0 [] [Component.mk ("plain") 0 none 0] [] none 4

/-- An INITIALIZER-flagged procedure with host entry point 7. -/
def tbpInitA : TypeBoundProcedure := ⟨1, 0, "ia", 7, 0⟩

/-- A second INITIALIZER-flagged procedure, host entry point null. -/
def tbpInitB : TypeBoundProcedure := ⟨1, 0, "ib", 0, 0⟩

/-- A type with two INITIALIZER-flagged procedures; the one appearing
last in the table has a null host entry point. -/
def dtTwoInits : DerivedType :=
  mkDerivedType ("t10x") 0 0 [] [] [tbpInitA, tbpInitB] none 1

/-- A procedure environment whose every invocation writes 99 everywhere. -/
def envNinetyNine : ProcEnv := fun _ _ _ => fun _ => 99

/-- The constant-value memory. -/
def memConst (v : Nat) : Mem := fun _ => v

-- THEOREMS-BEGIN

mutual

theorem beqDescriptor_iff : ∀ a b, beqDescriptor a b = true ↔ a = b
  | Descriptor.mk a, Descriptor.mk b => by
    simp [beqDescriptor, beqOptAddendum_iff a b]

theorem beqOptAddendum_iff : ∀ a b, beqOptAddendum a b = true ↔ a = b
  | none, none => by simp [beqOptAddendum]
  | none, some b => by simp [beqOptAddendum]
  | some a, none => by simp [beqOptAddendum]
  | some a, some b => by simp [beqOptAddendum, beqAddendum_iff a b]

theorem beqAddendum_iff : ∀ a b, beqAddendum a b = true ↔ a = b
  | DescriptorAddendum.mk a, DescriptorAddendum.mk b => by
    simp [beqAddendum, beqOptDerivedType_iff a b]

theorem beqOptDerivedType_iff : ∀ a b, beqOptDerivedType a b = true ↔ a = b
  | none, none => by simp [beqOptDerivedType]
  | none, some b => by simp [beqOptDerivedType]
  | some a, none => by simp [beqOptDerivedType]
  | some a, some b => by simp [beqOptDerivedType, beqDerivedType_iff a b]

theorem beqOptDescriptor_iff : ∀ a b, beqOptDescriptor a b = true ↔ a = b
  | none, none => by simp [beqOptDescriptor]
  | none, some b => by simp [beqOptDescriptor]
  | some a, none => by simp [beqOptDescriptor]
  | some a, some b => by simp [beqOptDescriptor, beqDescriptor_iff a b]

theorem beqComponent_iff : ∀ a b, beqComponent a b = true ↔ a = b
  | Component.mk n1 f1 sd1 o1, Component.mk n2 f2 sd2 o2 => by
    simp [beqComponent, beqOptDescriptor_iff sd1 sd2, and_assoc]

theorem beqComponents_iff : ∀ a b, beqComponents a b = true ↔ a = b
  | [], [] => by simp [beqComponents]
  | [], c :: cs => by simp [beqComponents]
  | c :: cs, [] => by simp [beqComponents]
  | c :: cs, d :: ds => by
    simp [beqComponents, beqComponent_iff c d, beqComponents_iff cs ds]

theorem beqDerivedType_iff : ∀ a b, beqDerivedType a b = true ↔ a = b
  | DerivedType.mk n1 kp1 lp1 tp1 ca1 tb1 f1 i1 b1 it1,
    DerivedType.mk n2 kp2 lp2 tp2 ca2 tb2 f2 i2 b2 it2 => by
    simp [beqDerivedType, beqComponents_iff ca1 ca2, and_assoc]

end

lemma sizeOf_parentOf_lt : ∀ (dt p : DerivedType), dt.parentOf = some p →
    sizeOf p < sizeOf dt := by
  intro dt p h
  unfold DerivedType.parentOf at h
  split at h
  · match dt with
    | DerivedType.mk n kps lps tp ca tbp fl init sz itbp =>
      simp only [DerivedType.components] at h
      match ca, h with
      | Component.mk cn cf (some (Descriptor.mk (some (DescriptorAddendum.mk (some q))))) co :: rest, h =>
        simp [Component.staticDescriptor, Descriptor.Addendum,
          DescriptorAddendum.derivedType, Option.bind] at h
        subst h
        simp only [DerivedType.mk.sizeOf_spec, Component.mk.sizeOf_spec,
          Descriptor.mk.sizeOf_spec, DescriptorAddendum.mk.sizeOf_spec,
          List.cons.sizeOf_spec, Option.some.sizeOf_spec]
        omega
  · exact absurd h (by simp)

section SupportLemmas

lemma mk_components (n kps lps tp ca tbp init sz) :
    (mkDerivedType n kps lps tp ca tbp init sz).components = ca := rfl

lemma mk_typeBoundProcedures (n kps lps tp ca tbp init sz) :
    (mkDerivedType n kps lps tp ca tbp init sz).typeBoundProcedures = tbp := rfl

lemma mk_initializer (n kps lps tp ca tbp init sz) :
    (mkDerivedType n kps lps tp ca tbp init sz).initializer = init := rfl

lemma mk_bytes (n kps lps tp ca tbp init sz) :
    (mkDerivedType n kps lps tp ca tbp init sz).bytes = sz := rfl

lemma mk_initTBP (n kps lps tp ca tbp init sz) :
    (mkDerivedType n kps lps tp ca tbp init sz).initTBP = computeInitTBP tbp := rfl

lemma mk_flags (n kps lps tp ca tbp init sz) :
    (mkDerivedType n kps lps tp ca tbp init sz).flags =
      finalizableFlag tbp |||
        (if init.isNone ∧ computeInitTBP tbp < 0 then componentInitFlags ca else 0) := rfl

/-- With no INITIALIZER-flagged procedure in the remaining table, the
constructor loop leaves the running index unchanged. -/
lemma computeInitTBPAux_of_none : ∀ (l : List TypeBoundProcedure) (j : Nat) (acc : Int),
    (∀ t ∈ l, t.flags &&& TypeBoundProcedure.INITIALIZER = 0) →
    computeInitTBPAux l j acc = acc := by
  intro l
  induction l with
  | nil => intro j acc _; rfl
  | cons t rest ih =>
    intro j acc h
    have ht := h t (by simp)
    have hrest : ∀ u ∈ rest, u.flags &&& TypeBoundProcedure.INITIALIZER = 0 :=
      fun u hu => h u (by simp [hu])
    simp [computeInitTBPAux, ht, ih _ _ hrest]

/-- When index k holds an INITIALIZER-flagged procedure and no later index
does, the constructor loop ends at j + k. -/
lemma computeInitTBPAux_of_last : ∀ (l : List TypeBoundProcedure) (j : Nat) (acc : Int)
    (k : Nat) (p : TypeBoundProcedure),
    l.get? k = some p →
    p.flags &&& TypeBoundProcedure.INITIALIZER ≠ 0 →
    (∀ i t, l.get? i = some t → k < i → t.flags &&& TypeBoundProcedure.INITIALIZER = 0) →
    computeInitTBPAux l j acc = (j : Int) + (k : Int) := by
  intro l
  induction l with
  | nil => intro j acc k p hk; simp at hk
  | cons t rest ih =>
    intro j acc k p hk hp hafter
    match k with
    | 0 =>
      obtain rfl : t = p := Option.some.inj hk
      have hrest : ∀ u ∈ rest, u.flags &&& TypeBoundProcedure.INITIALIZER = 0 := by
        intro u hu
        obtain ⟨i, hi⟩ := List.get?_of_mem hu
        exact hafter (i + 1) u hi (Nat.succ_pos i)
      show computeInitTBPAux rest (j + 1)
          (if t.flags &&& TypeBoundProcedure.INITIALIZER ≠ 0 then (j : Int) else acc) =
        (j : Int) + ((0 : Nat) : Int)
      rw [if_pos hp, computeInitTBPAux_of_none rest (j + 1) (j : Int) hrest]
      simp
    | k' + 1 =>
      have hk' : rest.get? k' = some p := hk
      have hafter' : ∀ i u, rest.get? i = some u → k' < i →
          u.flags &&& TypeBoundProcedure.INITIALIZER = 0 := by
        intro i u hi hlt
        exact hafter (i + 1) u hi (by omega)
      have hrec := ih (j + 1)
        (if t.flags &&& TypeBoundProcedure.INITIALIZER ≠ 0 then (j : Int) else acc)
        k' p hk' hp hafter'
      calc computeInitTBPAux (t :: rest) j acc
          = computeInitTBPAux rest (j + 1)
              (if t.flags &&& TypeBoundProcedure.INITIALIZER ≠ 0 then (j : Int) else acc) := rfl
        _ = ((j + 1 : Nat) : Int) + (k' : Int) := hrec
        _ = (j : Int) + ((k' + 1 : Nat) : Int) := by push_cast; ring

lemma computeInitTBP_of_none (l : List TypeBoundProcedure)
    (h : ∀ t ∈ l, t.flags &&& TypeBoundProcedure.INITIALIZER = 0) :
    computeInitTBP l = -1 :=
  computeInitTBPAux_of_none l 0 (-1) h

lemma computeInitTBP_of_last (l : List TypeBoundProcedure) (k : Nat)
    (p : TypeBoundProcedure) (hk : l.get? k = some p)
    (hp : p.flags &&& TypeBoundProcedure.INITIALIZER ≠ 0)
    (hafter : ∀ i t, l.get? i = some t → k < i →
      t.flags &&& TypeBoundProcedure.INITIALIZER = 0) :
    computeInitTBP l = (k : Int) := by
  have := computeInitTBPAux_of_last l 0 (-1) k p hk hp hafter
  simpa [computeInitTBP] using this

lemma componentInitFlags_step (fl : Nat) (c : Component) :
    (if c.IsDescriptor then fl ||| DerivedType.INIT_ZERO
      else
        match c.staticDescriptor with
        | some sd =>
            match sd.Addendum with
            | some a =>
                match a.derivedType with
                | some t =>
                    if t.IsInitializable && !t.IsInitZero then
                      fl ||| DerivedType.INIT_COMPONENT
                    else fl
                | none => fl
            | none => fl
        | none => fl) =
    (if c.IsDescriptor then fl ||| DerivedType.INIT_ZERO
      else if componentCustomInit c then fl ||| DerivedType.INIT_COMPONENT else fl) := by
  by_cases hd : c.IsDescriptor
  · simp [hd]
  · rcases hsd : c.staticDescriptor with _ | sd
    · simp [hd, hsd, componentCustomInit]
    · rcases had : sd.Addendum with _ | a
      · simp [hd, hsd, had, componentCustomInit]
      · rcases hdt : a.derivedType with _ | t
        · simp [hd, hsd, had, hdt, componentCustomInit]
        · simp [hd, hsd, had, hdt, componentCustomInit]

lemma componentInitFlags_eq (comps : List Component) :
    componentInitFlags comps = comps.foldl initScanStep 0 := by
  simp only [componentInitFlags, initScanStep]
  congr 1
  funext fl c
  exact componentInitFlags_step fl c

lemma foldl_initScanStep_noCustom : ∀ (comps : List Component) (acc : Nat),
    (∀ c ∈ comps, componentCustomInit c = false) →
    comps.foldl initScanStep acc =
      acc ||| (if comps.any Component.IsDescriptor then DerivedType.INIT_ZERO else 0) := by
  intro comps
  induction comps with
  | nil => intro acc _; simp
  | cons c rest ih =>
    intro acc h
    have hc := h c (by simp)
    have hrest : ∀ u ∈ rest, componentCustomInit u = false := fun u hu => h u (by simp [hu])
    by_cases hd : c.IsDescriptor
    · simp only [List.foldl_cons, initScanStep, hd, if_pos, hc, Bool.false_eq_true,
        if_false, ih _ hrest, List.any_cons, hd, Bool.true_or, if_true]
      by_cases hr : rest.any Component.IsDescriptor
      · simp [hr, Nat.or_assoc]
      · simp [hr]
    · simp only [List.foldl_cons, initScanStep, hd, Bool.false_eq_true, if_false, hc,
        ih _ hrest, List.any_cons]
      simp [hd]

lemma componentInitFlags_noCustom (comps : List Component)
    (h : ∀ c ∈ comps, componentCustomInit c = false) :
    componentInitFlags comps =
      (if comps.any Component.IsDescriptor then DerivedType.INIT_ZERO else 0) := by
  rw [componentInitFlags_eq, foldl_initScanStep_noCustom comps 0 h]
  simp

lemma initScanStep_or (acc : Nat) (c : Component) :
    ∃ K, K ∈ ([0, 8, 16] : List Nat) ∧ initScanStep acc c = acc ||| K := by
  unfold initScanStep
  by_cases hd : c.IsDescriptor
  · exact ⟨8, by simp, by simp [hd, DerivedType.INIT_ZERO]⟩
  · by_cases hc : componentCustomInit c
    · exact ⟨16, by simp, by simp [hd, hc, DerivedType.INIT_COMPONENT]⟩
    · exact ⟨0, by simp, by simp [hd, hc]⟩

lemma foldl_initScanStep_or : ∀ (comps : List Component) (acc : Nat),
    ∃ K, K ∈ ([0, 8, 16, 24] : List Nat) ∧ comps.foldl initScanStep acc = acc ||| K := by
  intro comps
  induction comps with
  | nil => intro acc; exact ⟨0, by simp, by simp⟩
  | cons c rest ih =>
    intro acc
    obtain ⟨K1, hK1, h1⟩ := initScanStep_or acc c
    obtain ⟨K2, hK2, h2⟩ := ih (initScanStep acc c)
    refine ⟨K1 ||| K2, ?_, ?_⟩
    · simp only [List.mem_cons, List.mem_singleton, List.not_mem_nil, or_false] at hK1 hK2
      rcases hK1 with rfl | rfl | rfl <;> rcases hK2 with rfl | rfl | rfl | rfl <;> decide
    · rw [List.foldl_cons, h2, h1, Nat.or_assoc]

/-- The value of the component-scan flag word is one of 0, 8, 16, 24. -/
lemma componentInitFlags_or (comps : List Component) :
    ∃ K, K ∈ ([0, 8, 16, 24] : List Nat) ∧ componentInitFlags comps = K := by
  obtain ⟨K, hK, h⟩ := foldl_initScanStep_or comps 0
  rw [componentInitFlags_eq]
  exact ⟨K, hK, by simpa using h⟩

lemma finalizableFlag_or (tbps : List TypeBoundProcedure) :
    finalizableFlag tbps = 0 ∨ finalizableFlag tbps = 4 := by
  unfold finalizableFlag
  split <;> simp [DerivedType.FINALIZABLE]

/-- Unfolding of Initialize through the stored fields. -/
lemma Initialize_eq (env : ProcEnv) (dt : DerivedType) (base : Nat) (m : Mem) :
    dt.Initialize env base m =
      match dt.initializer with
      | some img => memcpyImage base dt.bytes img m
      | none =>
        if dt.initTBP ≥ 0 ∧ initHost dt ≠ 0 then env (initHost dt) base m
        else
          if dt.flags &&& DerivedType.INIT_COMPONENT ≠ 0 then
            initComponents env dt.components base
              (if dt.flags &&& DerivedType.INIT_ZERO ≠ 0 then memsetZero base dt.bytes m else m)
          else
            (if dt.flags &&& DerivedType.INIT_ZERO ≠ 0 then memsetZero base dt.bytes m else m) := by
  match dt with
  | DerivedType.mk n kps lps tp ca tbp fl init sz itbp =>
    rw [DerivedType.Initialize.eq_def]
    rfl

end SupportLemmas

section DestroyLemmas

lemma isExtension_mk (n kps lps tp c0 rest tbp fl init sz itbp) :
    (DerivedType.mk n kps lps tp (c0 :: rest) tbp fl init sz itbp).IsExtension =
      c0.IsParent := rfl

lemma component_nested_some (c : Component) (p : DerivedType)
    (h : (c.staticDescriptor.bind Descriptor.Addendum).bind
          DescriptorAddendum.derivedType = some p) :
    ∃ cn cf co, c = Component.mk cn cf
      (some (Descriptor.mk (some (DescriptorAddendum.mk (some p))))) co := by
  match c with
  | Component.mk cn cf sd co =>
    match sd with
    | none => simp [Component.staticDescriptor, Option.bind] at h
    | some (Descriptor.mk none) =>
      simp [Component.staticDescriptor, Descriptor.Addendum, Option.bind] at h
    | some (Descriptor.mk (some (DescriptorAddendum.mk none))) =>
      simp [Component.staticDescriptor, Descriptor.Addendum,
        DescriptorAddendum.derivedType, Option.bind] at h
    | some (Descriptor.mk (some (DescriptorAddendum.mk (some q)))) =>
      simp [Component.staticDescriptor, Descriptor.Addendum,
        DescriptorAddendum.derivedType, Option.bind] at h
      subst h
      exact ⟨cn, cf, co, rfl⟩

lemma destroy_eq_noext (dt : DerivedType) (hext : dt.IsExtension = false)
    (base : Nat) (fin : Bool) :
    dt.DestroyScalarInstance base fin = levelDestroyActions dt base fin := by
  match dt with
  | DerivedType.mk n kps lps tp ca tbp fl init sz itbp =>
    rw [DerivedType.DestroyScalarInstance.eq_def]
    match ca, hext with
    | [], _ => simp [levelDestroyActions, DerivedType.typeBoundProcedures]
    | c0 :: rest, hext =>
      rw [isExtension_mk] at hext
      simp [levelDestroyActions, hext, DerivedType.typeBoundProcedures]

lemma destroy_eq_parent (dt p : DerivedType) (hp : dt.parentOf = some p)
    (base : Nat) (fin : Bool) :
    dt.DestroyScalarInstance base fin =
      levelDestroyActions dt base fin ++ p.DestroyScalarInstance base fin := by
  match dt with
  | DerivedType.mk n kps lps tp ca tbp fl init sz itbp =>
    unfold DerivedType.parentOf at hp
    split at hp
    case isFalse => exact absurd hp (by simp)
    case isTrue hext =>
      match ca, hp, hext with
      | c0 :: rest, hp, hext =>
        rw [isExtension_mk] at hext
        simp only [DerivedType.components] at hp
        obtain ⟨cn, cf, co, rfl⟩ := component_nested_some c0 p hp
        rw [DerivedType.DestroyScalarInstance.eq_def]
        simp [levelDestroyActions, hext, DerivedType.typeBoundProcedures]

lemma destroy_eq_broken (dt : DerivedType) (hext : dt.IsExtension = true)
    (hp : dt.parentOf = none) (base : Nat) (fin : Bool) :
    ∃ msg, dt.DestroyScalarInstance base fin =
      levelDestroyActions dt base fin ++ [DestroyAction.fatal msg] := by
  match dt with
  | DerivedType.mk n kps lps tp ca tbp fl init sz itbp =>
    match ca, hext with
    | c0 :: rest, hext =>
      rw [isExtension_mk] at hext
      unfold DerivedType.parentOf at hp
      rw [if_pos] at hp
      · simp only [DerivedType.components] at hp
        match c0 with
        | Component.mk cn cf sd co =>
          match sd with
          | none =>
            refine ⟨"staticParentDescriptor", ?_⟩
            rw [DerivedType.DestroyScalarInstance.eq_def]
            simp [levelDestroyActions, hext, DerivedType.typeBoundProcedures]
          | some (Descriptor.mk none) =>
            refine ⟨"parentAddendum", ?_⟩
            rw [DerivedType.DestroyScalarInstance.eq_def]
            simp [levelDestroyActions, hext, DerivedType.typeBoundProcedures]
          | some (Descriptor.mk (some (DescriptorAddendum.mk none))) =>
            refine ⟨"parentType", ?_⟩
            rw [DerivedType.DestroyScalarInstance.eq_def]
            simp [levelDestroyActions, hext, DerivedType.typeBoundProcedures]
          | some (Descriptor.mk (some (DescriptorAddendum.mk (some q)))) =>
            simp [Component.staticDescriptor, Descriptor.Addendum,
              DescriptorAddendum.derivedType, Option.bind] at hp
      · rw [isExtension_mk]
        exact hext

lemma ancestorChain_parent (dt p : DerivedType) (hp : dt.parentOf = some p) :
    dt.ancestorChain = dt :: p.ancestorChain := by
  rw [DerivedType.ancestorChain.eq_def]
  congr 1
  split
  case h_1 q hq => rw [hp] at hq; exact congrArg _ (Option.some.inj hq).symm
  case h_2 hq => rw [hp] at hq; exact absurd hq (by simp)

lemma ancestorChain_root (dt : DerivedType) (hp : dt.parentOf = none) :
    dt.ancestorChain = [dt] := by
  rw [DerivedType.ancestorChain.eq_def]
  congr 1
  split
  case h_1 q hq => rw [hp] at hq; exact absurd hq (by simp)
  case h_2 hq => rfl

lemma wellChained_parent (dt p : DerivedType) (hext : dt.IsExtension = true)
    (hp : dt.parentOf = some p) :
    dt.wellChained = p.wellChained := by
  rw [DerivedType.wellChained.eq_def, if_pos hext]
  split
  case h_1 q hq => rw [hp] at hq; exact congrArg _ (Option.some.inj hq).symm
  case h_2 hq => rw [hp] at hq; exact absurd hq (by simp)

lemma wellChained_noext (dt : DerivedType) (hext : dt.IsExtension = false) :
    dt.wellChained = true := by
  rw [DerivedType.wellChained.eq_def]
  simp [hext]

lemma parentOf_of_noext (dt : DerivedType) (hext : dt.IsExtension = false) :
    dt.parentOf = none := by
  unfold DerivedType.parentOf
  simp [hext]

/-- Across a well-formed inheritance chain, a scalar teardown is the
concatenation of the per-level actions, most-derived level first. -/
lemma destroy_chain_aux : ∀ (dt : DerivedType), dt.wellChained = true →
    ∀ (base : Nat) (fin : Bool),
    dt.DestroyScalarInstance base fin =
      (dt.ancestorChain).flatMap (fun t => levelDestroyActions t base fin)
  | dt, h, base, fin => by
    by_cases hext : dt.IsExtension = true
    · match hp : dt.parentOf with
      | some p =>
        have hwp : p.wellChained = true := by
          rw [wellChained_parent dt p hext hp] at h; exact h
        have ih := destroy_chain_aux p hwp base fin
        rw [destroy_eq_parent dt p hp base fin, ancestorChain_parent dt p hp,
          List.flatMap_cons, ih]
      | none =>
        rw [DerivedType.wellChained.eq_def, if_pos hext] at h
        split at h
        case h_1 q hq => rw [hp] at hq; exact absurd hq (by simp)
        case h_2 => exact absurd h (by simp)
    · have hext' : dt.IsExtension = false := by
        revert hext; cases dt.IsExtension <;> simp
      rw [destroy_eq_noext dt hext' base fin,
        ancestorChain_root dt (parentOf_of_noext dt hext'), List.flatMap_cons]
      simp
termination_by dt => sizeOf dt
decreasing_by exact sizeOf_parentOf_lt dt p hp

end DestroyLemmas

section Claims

/-- C1: a DerivedType constructed with a non-null flat default image,
applied to an instance buffer of the declared size, copies exactly the
image bytes over the whole instance and does nothing else: the result
holds the image on [base, base + sz), is untouched elsewhere, and does
not depend on the procedure semantics, the components, the procedures,
or the flags. -/
theorem claim_C1_flat_image_copy (env : ProcEnv) (n : String) (kps lps : Nat)
    (tp : List TypeParameter) (ca : List Component)
    (tbp : List TypeBoundProcedure) (img : List Nat) (sz base : Nat) (m : Mem)
    (a : Nat) :
    DerivedType.Initialize env (mkDerivedType n kps lps tp ca tbp (some img) sz)
        base m a =
      if base ≤ a ∧ a < base + sz then img.getD (a - base) 0 else m a := by
  rw [Initialize_eq]
  simp only [mk_initializer, mk_bytes]
  rfl

lemma initTBP_not_taken (n : String) (kps lps : Nat) (tp : List TypeParameter)
    (ca : List Component) (tbp : List TypeBoundProcedure)
    (init : Option (List Nat)) (sz : Nat)
    (h1 : ∀ t ∈ tbp, t.flags &&& TypeBoundProcedure.INITIALIZER = 0) :
    ¬((mkDerivedType n kps lps tp ca tbp init sz).initTBP ≥ 0 ∧
      initHost (mkDerivedType n kps lps tp ca tbp init sz) ≠ 0) := by
  rw [mk_initTBP, computeInitTBP_of_none tbp h1]
  intro hcon
  exact absurd hcon.1 (by norm_num)

/-- C6: a DerivedType constructed with no flat image, no
INITIALIZER-flagged procedure, no descriptor-flagged component and no
component whose static descriptor carries an initializable,
not-zero-initializable nested type leaves the instance memory unchanged,
whatever the procedure semantics. -/
theorem claim_C6_inert_initialize (env : ProcEnv) (n : String) (kps lps : Nat)
    (tp : List TypeParameter) (ca : List Component)
    (tbp : List TypeBoundProcedure) (sz base : Nat) (m : Mem)
    (h1 : ∀ t ∈ tbp, t.flags &&& TypeBoundProcedure.INITIALIZER = 0)
    (h2 : ∀ c ∈ ca, c.IsDescriptor = false)
    (h3 : ∀ c ∈ ca, componentCustomInit c = false) :
    DerivedType.Initialize env (mkDerivedType n kps lps tp ca tbp none sz)
        base m = m := by
  have hitbp : computeInitTBP tbp = -1 := computeInitTBP_of_none tbp h1
  have hany : ca.any Component.IsDescriptor = false := by
    rw [List.any_eq_false]
    intro c hc
    simp [h2 c hc]
  have hcfl : componentInitFlags ca = 0 := by
    rw [componentInitFlags_noCustom ca h3, hany]
    simp
  have hflags : (mkDerivedType n kps lps tp ca tbp none sz).flags =
      finalizableFlag tbp := by
    rw [mk_flags, hitbp, hcfl]
    norm_num
  rw [Initialize_eq]
  simp only [mk_initializer, if_neg (initTBP_not_taken n kps lps tp ca tbp none sz h1)]
  have e1 : (0 : Nat) &&& 16 = 0 := by decide
  have e2 : (0 : Nat) &&& 8 = 0 := by decide
  have e3 : (4 : Nat) &&& 16 = 0 := by decide
  have e4 : (4 : Nat) &&& 8 = 0 := by decide
  rcases finalizableFlag_or tbp with hf | hf <;>
    simp [hflags, hf, DerivedType.INIT_ZERO, DerivedType.INIT_COMPONENT, e1, e2, e3, e4]

lemma finalizableFlag_eq_four_iff (tbp : List TypeBoundProcedure) :
    finalizableFlag tbp = 4 ↔
      ∃ t ∈ tbp, t.finalRank ≠ 0 ∨
        t.flags &&& TypeBoundProcedure.ASSUMED_RANK_FINAL ≠ 0 := by
  unfold finalizableFlag
  split
  case isTrue hany =>
    simp only [List.any_eq_true, Bool.or_eq_true, decide_eq_true_eq, bne_iff_ne,
      ne_eq] at hany
    simpa [DerivedType.FINALIZABLE] using hany
  case isFalse hany =>
    simp only [List.any_eq_true, Bool.or_eq_true, decide_eq_true_eq, bne_iff_ne,
      ne_eq] at hany
    constructor
    · intro h0
      exact absurd h0 (by norm_num)
    · intro hex
      exact absurd hex hany

/-- C7: a constructed DerivedType reports IsFinalizable exactly when some
procedure of its table has a nonzero per-rank finalizer bitmask or the
ASSUMED_RANK_FINAL flag. -/
theorem claim_C7_isFinalizable (n : String) (kps lps : Nat)
    (tp : List TypeParameter) (ca : List Component)
    (tbp : List TypeBoundProcedure) (init : Option (List Nat)) (sz : Nat) :
    (mkDerivedType n kps lps tp ca tbp init sz).IsFinalizable = true ↔
      ∃ t ∈ tbp, t.finalRank ≠ 0 ∨
        t.flags &&& TypeBoundProcedure.ASSUMED_RANK_FINAL ≠ 0 := by
  rw [← finalizableFlag_eq_four_iff]
  unfold DerivedType.IsFinalizable
  rw [mk_flags]
  have hcfl : ∃ K, K ∈ ([0, 8, 16, 24] : List Nat) ∧
      (if init.isNone ∧ computeInitTBP tbp < 0 then componentInitFlags ca else 0) =
        K := by
    split
    · exact componentInitFlags_or ca
    · exact ⟨0, by simp, rfl⟩
  obtain ⟨K, hK, hKeq⟩ := hcfl
  rw [hKeq]
  rcases finalizableFlag_or tbp with hf | hf <;> rw [hf] <;>
    simp only [List.mem_cons, List.not_mem_nil, or_false] at hK <;>
    rcases hK with rfl | rfl | rfl | rfl <;> decide

/-- C8: IsFinalForRank holds at every rank when ASSUMED_RANK_FINAL is
set, and otherwise exactly when bit rank of the finalizer bitmask is 1. -/
theorem claim_C8_isFinalForRank (t : TypeBoundProcedure) (r : Nat) :
    t.IsFinalForRank r = true ↔
      (t.flags &&& TypeBoundProcedure.ASSUMED_RANK_FINAL ≠ 0 ∨
        t.finalRank.testBit r = true) := by
  unfold TypeBoundProcedure.IsFinalForRank Nat.testBit
  rw [Nat.and_comm 1 (t.finalRank >>> r)]
  simp [ne_eq]

lemma extends_parent (a p b : DerivedType) (hp : a.parentOf = some p) :
    a.Extends b = (beqDerivedType p b || p.Extends b) := by
  rw [DerivedType.Extends.eq_def]
  split
  case h_1 q hq =>
    rw [hp] at hq
    cases Option.some.inj hq
    rfl
  case h_2 hq =>
    rw [hp] at hq
    exact Option.noConfusion hq

lemma extends_root (a b : DerivedType) (hp : a.parentOf = none) :
    a.Extends b = false := by
  rw [DerivedType.Extends.eq_def]
  split
  case h_1 q hq =>
    rw [hp] at hq
    exact Option.noConfusion hq
  case h_2 hq => rfl

lemma ancestorChain_head (dt : DerivedType) :
    dt.ancestorChain = dt :: dt.ancestorChain.tail := by
  match hp : dt.parentOf with
  | some p => rw [ancestorChain_parent dt p hp]; rfl
  | none => rw [ancestorChain_root dt hp]; rfl

lemma extends_iff_mem_tail : ∀ (a b : DerivedType),
    a.Extends b = true ↔ b ∈ a.ancestorChain.tail
  | a, b => by
    match hp : a.parentOf with
    | some p =>
      have ih := extends_iff_mem_tail p b
      rw [extends_parent a p b hp, ancestorChain_parent a p hp]
      rw [ancestorChain_head p]
      simp only [List.tail_cons, List.mem_cons, Bool.or_eq_true,
        beqDerivedType_iff, ← ih]
      constructor
      · rintro (rfl | hx)
        · exact Or.inl rfl
        · exact Or.inr hx
      · rintro (rfl | hx)
        · exact Or.inl rfl
        · exact Or.inr hx
    | none =>
      rw [extends_root a b hp, ancestorChain_root a hp]
      simp
termination_by a b => sizeOf a
decreasing_by exact sizeOf_parentOf_lt a p hp

/-- C9: the spec-modelled Extends reports true exactly when the given
type appears in the chain of parent types reached through the
parent-component nested-type pointers. -/
theorem claim_C9_extends_chain (a b : DerivedType) :
    a.Extends b = true ↔ b ∈ a.ancestorChain.tail :=
  extends_iff_mem_tail a b

/-- C2 as stated is false at dtElemNullHost: the type is finalizable and
its procedure is flagged ELEMENTAL with finalizer bit 0 set, yet a
finalizing DestroyScalarInstance invokes nothing because the host entry
point is null: the trace is empty. -/
theorem claim_C2_counterexample :
    dtElemNullHost.IsFinalizable = true ∧
    tbpElemNullHost.flags &&& TypeBoundProcedure.ELEMENTAL ≠ 0 ∧
    tbpElemNullHost.finalRank &&& 1 ≠ 0 ∧
    dtElemNullHost.DestroyScalarInstance 0 true = [] := by
  refine ⟨rfl, by decide, by decide, ?_⟩
  rw [destroy_eq_noext dtElemNullHost rfl 0 true]
  rfl

/-- C2 (amended): for every DerivedType whose inheritance chain is
intact, DestroyScalarInstance is the concatenation, most-derived level
first and base level last, of the per-level actions: the elemental
finalizers whose bit 0 is set and whose host entry point is non-null
when finalization is requested and the level is finalizable, then that
level destruction of its non-parent components, each level once, with
the same finalize flag throughout. -/
theorem claim_C2_destroy_chain (dt : DerivedType) (h : dt.wellChained = true)
    (base : Nat) (fin : Bool) :
    dt.DestroyScalarInstance base fin =
      (dt.ancestorChain).flatMap (fun t => levelDestroyActions t base fin) :=
  destroy_chain_aux dt h base fin

theorem claim_C2_witness :
    dtGrandW.wellChained = true ∧
    dtGrandW.DestroyScalarInstance 0 true =
      (dtGrandW.ancestorChain).flatMap (fun t => levelDestroyActions t 0 true) := by
  have hwc : dtGrandW.wellChained = true := by
    rw [wellChained_parent dtGrandW dtChildW rfl rfl,
        wellChained_parent dtChildW dtBaseW rfl rfl,
        wellChained_noext dtBaseW rfl]
  exact ⟨hwc, claim_C2_destroy_chain dtGrandW hwc 0 true⟩

/-- C3: for an extension whose parent component lacks a static
descriptor, or whose static descriptor lacks an addendum or a nested
type, a scalar destroy performs the level actions and stops at the fatal
diagnostic: the fatal action ends the trace and no recursion into a
parent occurs. -/
theorem claim_C3_broken_parent_fatal (dt : DerivedType)
    (hext : dt.IsExtension = true) (hp : dt.parentOf = none)
    (base : Nat) (fin : Bool) :
    ∃ msg, dt.DestroyScalarInstance base fin =
      levelDestroyActions dt base fin ++ [DestroyAction.fatal msg] :=
  destroy_eq_broken dt hext hp base fin

theorem claim_C3_witness :
    dtBrokenParent.IsExtension = true ∧ dtBrokenParent.parentOf = none ∧
    ∃ msg, dtBrokenParent.DestroyScalarInstance 0 true =
      levelDestroyActions dtBrokenParent 0 true ++ [DestroyAction.fatal msg] :=
  ⟨rfl, rfl, claim_C3_broken_parent_fatal dtBrokenParent rfl rfl 0 true⟩

lemma after_of_drop (l : List TypeBoundProcedure) (k : Nat)
    (h : ∀ t ∈ l.drop (k + 1), t.flags &&& TypeBoundProcedure.INITIALIZER = 0) :
    ∀ i t, l.get? i = some t → k < i →
      t.flags &&& TypeBoundProcedure.INITIALIZER = 0 := by
  intro i t hi hki
  apply h
  have hd : (l.drop (k + 1)).get? (i - (k + 1)) = some t := by
    rw [List.get?_drop]
    rwa [show k + 1 + (i - (k + 1)) = i by omega]
  exact List.get?_mem hd

/-- When the cached index is k and the procedure there is p, Initialize
on a type with no flat image calls through the host entry point of p
when it is non-null and otherwise leaves memory unchanged. -/
lemma initialize_initTBP (env : ProcEnv) (n : String) (kps lps : Nat)
    (tp : List TypeParameter) (ca : List Component)
    (tbp : List TypeBoundProcedure) (sz base : Nat) (m : Mem) (k : Nat)
    (p : TypeBoundProcedure) (hk : tbp.get? k = some p)
    (hp : p.flags &&& TypeBoundProcedure.INITIALIZER ≠ 0)
    (hafter : ∀ i t, tbp.get? i = some t → k < i →
      t.flags &&& TypeBoundProcedure.INITIALIZER = 0) :
    DerivedType.Initialize env (mkDerivedType n kps lps tp ca tbp none sz) base m =
      if p.host ≠ 0 then env p.host base m else m := by
  have hct : computeInitTBP tbp = (k : Int) :=
    computeInitTBP_of_last tbp k p hk hp hafter
  have hitbp : (mkDerivedType n kps lps tp ca tbp none sz).initTBP = (k : Int) := by
    rw [mk_initTBP, hct]
  have hhost : initHost (mkDerivedType n kps lps tp ca tbp none sz) = p.host := by
    unfold initHost
    rw [mk_typeBoundProcedures, hitbp, Int.toNat_natCast, hk]
    rfl
  have hflags : (mkDerivedType n kps lps tp ca tbp none sz).flags =
      finalizableFlag tbp := by
    rw [mk_flags, hct]
    rw [if_neg ?_]
    · norm_num
    · intro hcon
      have := hcon.2
      omega
  rw [Initialize_eq]
  simp only [mk_initializer]
  by_cases hh : p.host = 0
  · rw [if_neg ?_]
    · have e1 : (0 : Nat) &&& 16 = 0 := by decide
      have e2 : (0 : Nat) &&& 8 = 0 := by decide
      have e3 : (4 : Nat) &&& 16 = 0 := by decide
      have e4 : (4 : Nat) &&& 8 = 0 := by decide
      rcases finalizableFlag_or tbp with hf | hf <;>
        simp [hflags, hf, hh, DerivedType.INIT_ZERO, DerivedType.INIT_COMPONENT,
          e1, e2, e3, e4]
    · intro hcon
      exact hcon.2 (by rw [hhost]; exact hh)
  · rw [if_pos ⟨by rw [hitbp]; positivity, by rw [hhost]; exact hh⟩, hhost,
      if_pos hh]

/-- C4 (amended): a DerivedType constructed with no flat image and
exactly one INITIALIZER-flagged procedure whose host entry point is
non-null: Initialize invokes exactly that procedure with the instance
address, with no zero-fill and no per-component recursion, whatever the
components. -/
theorem claim_C4_initializer_invoked (env : ProcEnv) (n : String)
    (kps lps : Nat) (tp : List TypeParameter) (ca : List Component)
    (tbp : List TypeBoundProcedure) (sz base : Nat) (m : Mem) (k : Nat)
    (p : TypeBoundProcedure) (hk : tbp.get? k = some p)
    (hp : p.flags &&& TypeBoundProcedure.INITIALIZER ≠ 0)
    (hbefore : ∀ t ∈ tbp.take k, t.flags &&& TypeBoundProcedure.INITIALIZER = 0)
    (hafter : ∀ t ∈ tbp.drop (k + 1), t.flags &&& TypeBoundProcedure.INITIALIZER = 0)
    (hhost : p.host ≠ 0) :
    DerivedType.Initialize env (mkDerivedType n kps lps tp ca tbp none sz) base m =
      env p.host base m := by
  rw [initialize_initTBP env n kps lps tp ca tbp sz base m k p hk hp
    (after_of_drop tbp k hafter), if_pos hhost]

theorem claim_C4_witness :
    tbpInitOk.flags &&& TypeBoundProcedure.INITIALIZER ≠ 0 ∧
    tbpInitOk.host ≠ 0 ∧
    DerivedType.Initialize envNinetyNine dtInitOk 0 (memConst 0) =
      envNinetyNine tbpInitOk.host 0 (memConst 0) := by
  refine ⟨by decide, by decide, ?_⟩
  exact claim_C4_initializer_invoked envNinetyNine ("t4w") 0 0 [] [] [tbpInitOk]
    1 0 (memConst 0) 0 tbpInitOk rfl (by decide) (by simp) (by simp) (by decide)

/-- C4 as stated is false at dtInitNull: the single procedure is
INITIALIZER-flagged and there is no flat image, yet Initialize invokes
nothing because the host entry point is null: the memory is returned
unchanged although every invocation under this environment would write
99. -/
theorem claim_C4_counterexample :
    tbpInitNull.flags &&& TypeBoundProcedure.INITIALIZER ≠ 0 ∧
    dtInitNull.initTBP = 0 ∧
    envNinetyNine tbpInitNull.host 0 (memConst 0) 0 = 99 ∧
    DerivedType.Initialize envNinetyNine dtInitNull 0 (memConst 0) 0 = 0 := by
  refine ⟨by decide, rfl, rfl, ?_⟩
  rw [Initialize_eq]
  rfl

/-- C5 (amended): no flat image, no INITIALIZER-flagged procedure, at
least one descriptor-flagged component, and no component whose static
descriptor carries an initializable non-zero-init nested type: the whole
instance is zero-filled and memory outside it is untouched. -/
theorem claim_C5_zero_fill (env : ProcEnv) (n : String) (kps lps : Nat)
    (tp : List TypeParameter) (ca : List Component)
    (tbp : List TypeBoundProcedure) (sz base : Nat) (m : Mem) (a : Nat)
    (h1 : ∀ t ∈ tbp, t.flags &&& TypeBoundProcedure.INITIALIZER = 0)
    (h2 : ∃ c ∈ ca, c.IsDescriptor = true)
    (h3 : ∀ c ∈ ca, componentCustomInit c = false) :
    DerivedType.Initialize env (mkDerivedType n kps lps tp ca tbp none sz) base m a =
      if base ≤ a ∧ a < base + sz then 0 else m a := by
  have hitbp : computeInitTBP tbp = -1 := computeInitTBP_of_none tbp h1
  have hany : ca.any Component.IsDescriptor = true := List.any_eq_true.mpr h2
  have hcfl : componentInitFlags ca = 8 := by
    rw [componentInitFlags_noCustom ca h3, if_pos hany]
    rfl
  have hflags : (mkDerivedType n kps lps tp ca tbp none sz).flags =
      finalizableFlag tbp ||| 8 := by
    rw [mk_flags, hitbp, hcfl]
    norm_num
  rw [Initialize_eq]
  simp only [mk_initializer, if_neg (initTBP_not_taken n kps lps tp ca tbp none sz h1)]
  have e1 : (8 : Nat) &&& 16 = 0 := by decide
  have e2 : ¬((8 : Nat) &&& 8 = 0) := by decide
  have e3 : (12 : Nat) &&& 16 = 0 := by decide
  have e4 : ¬((12 : Nat) &&& 8 = 0) := by decide
  rcases finalizableFlag_or tbp with hf | hf <;>
    simp [hflags, hf, DerivedType.INIT_ZERO, DerivedType.INIT_COMPONENT,
      e1, e2, e3, e4, memsetZero, mk_bytes]

theorem claim_C5_witness :
    (∀ t ∈ ([] : List TypeBoundProcedure),
      t.flags &&& TypeBoundProcedure.INITIALIZER = 0) ∧
    (∃ c ∈ [Component.mk ("d5") 4 none 0], c.IsDescriptor = true) ∧
    (∀ c ∈ [Component.mk ("d5") 4 none 0], componentCustomInit c = false) ∧
    DerivedType.Initialize envNinetyNine dtZeroOnly 0 (memConst 5) 0 =
      if 0 ≤ 0 ∧ 0 < 0 + 1 then 0 else memConst 5 0 := by
  refine ⟨by simp, by decide, by decide, ?_⟩
  exact claim_C5_zero_fill envNinetyNine ("t5w") 0 0 []
    [Component.mk ("d5") 4 none 0] [] 1 0 (memConst 5) 0
    (by simp) (by decide) (by decide)

/-- C5 as stated is false at dtZeroPlus: it has a descriptor-flagged
component, no flat image and no initializer procedure, yet after
Initialize the byte at offset 1 holds 7, not 0, because the component
scan also set INIT_COMPONENT and the nested type default image is
written after the zero fill. -/
theorem claim_C5_counterexample :
    (∃ c ∈ dtZeroPlus.components, c.IsDescriptor = true) ∧
    dtZeroPlus.initializer = none ∧
    dtZeroPlus.typeBoundProcedures = [] ∧
    DerivedType.Initialize (fun _ _ m => m) dtZeroPlus 0 (memConst 5) 1 = 7 := by
  refine ⟨by decide, rfl, rfl, ?_⟩
  rw [Initialize_eq]
  simp only [dtZeroPlus, mkDerivedType, mk_initializer]
  norm_num [dtNested7, mkDerivedType, initComponents, Descriptor.Initialize,
    DerivedType.Initialize, memsetZero, memcpyImage, initHost,
    Component.staticDescriptor, Component.offset, Component.IsDescriptor,
    Component.flags, Component.IS_DESCRIPTOR, Descriptor.Addendum,
    DescriptorAddendum.derivedType, DerivedType.components, DerivedType.bytes,
    DerivedType.initializer, DerivedType.initTBP, DerivedType.flags,
    DerivedType.typeBoundProcedures, DerivedType.IsInitializable,
    DerivedType.IsInitZero, DerivedType.INIT_ZERO, DerivedType.INIT_COMPONENT,
    computeInitTBP, computeInitTBPAux, finalizableFlag, componentInitFlags]
  decide

/-- C10 (amended): with more than one INITIALIZER-flagged procedure the
constructor caches the index of the last one in table order; Initialize
on a type with no flat image then calls only through that procedure host
entry point when it is non-null, and invokes nothing otherwise; earlier
initializer-flagged procedures are never invoked. -/
theorem claim_C10_last_initializer (env : ProcEnv) (n : String)
    (kps lps : Nat) (tp : List TypeParameter) (ca : List Component)
    (tbp : List TypeBoundProcedure) (sz base : Nat) (m : Mem) (k : Nat)
    (p : TypeBoundProcedure) (hk : tbp.get? k = some p)
    (hp : p.flags &&& TypeBoundProcedure.INITIALIZER ≠ 0)
    (hbefore : ((tbp.take k).any fun t =>
      t.flags &&& TypeBoundProcedure.INITIALIZER != 0) = true)
    (hafter : ∀ t ∈ tbp.drop (k + 1),
      t.flags &&& TypeBoundProcedure.INITIALIZER = 0) :
    (mkDerivedType n kps lps tp ca tbp none sz).initTBP = (k : Int) ∧
    DerivedType.Initialize env (mkDerivedType n kps lps tp ca tbp none sz) base m =
      (if p.host ≠ 0 then env p.host base m else m) := by
  constructor
  · rw [mk_initTBP]
    exact computeInitTBP_of_last tbp k p hk hp (after_of_drop tbp k hafter)
  · exact initialize_initTBP env n kps lps tp ca tbp sz base m k p hk hp
      (after_of_drop tbp k hafter)

theorem claim_C10_witness :
    ((([tbpInitA, tbpInitB].take 1).any fun t =>
      t.flags &&& TypeBoundProcedure.INITIALIZER != 0) = true) ∧
    dtTwoInits.initTBP = ((1 : Nat) : Int) ∧
    DerivedType.Initialize envNinetyNine dtTwoInits 0 (memConst 0) =
      (if tbpInitB.host ≠ 0 then envNinetyNine tbpInitB.host 0 (memConst 0)
       else memConst 0) := by
  have h := claim_C10_last_initializer envNinetyNine ("t10x") 0 0 [] []
    [tbpInitA, tbpInitB] 1 0 (memConst 0) 1 tbpInitB rfl (by decide) (by decide)
    (by simp)
  exact ⟨by decide, h.1, h.2⟩

/-- C10 as stated is false at dtTwoInits: the constructor does cache the
last INITIALIZER-flagged index, but Initialize invokes no procedure at
all because the last-flagged procedure host entry point is null: memory
stays unchanged although every invocation under this environment would
write 99, so in particular the earlier initializer is not invoked
either. -/
theorem claim_C10_counterexample :
    tbpInitA.flags &&& TypeBoundProcedure.INITIALIZER ≠ 0 ∧
    tbpInitB.flags &&& TypeBoundProcedure.INITIALIZER ≠ 0 ∧
    dtTwoInits.initTBP = 1 ∧
    DerivedType.Initialize envNinetyNine dtTwoInits 0 (memConst 0) 0 = 0 := by
  refine ⟨by decide, by decide, rfl, ?_⟩
  rw [Initialize_eq]
  rfl

theorem claim_C6_witness :
    (∀ t ∈ ([] : List TypeBoundProcedure),
      t.flags &&& TypeBoundProcedure.INITIALIZER = 0) ∧
    (∀ c ∈ [Component.mk ("plain") 0 none 0], c.IsDescriptor = false) ∧
    (∀ c ∈ [Component.mk ("plain") 0 none 0], componentCustomInit c = false) ∧
    DerivedType.Initialize envNinetyNine dtInert 0 (memConst 5) = memConst 5 := by
  refine ⟨by simp, by decide, by decide, ?_⟩
  exact claim_C6_inert_initialize envNinetyNine ("t6w") 0 0 []
    [Component.mk ("plain") 0 none 0] [] 4 0 (memConst 5)
    (by simp) (by decide) (by decide)

end Claims

end Fortran.Runtime
